import Mathlib

/-!
Verification of the student-dashboard analysis pipeline (`src/analysis.py`).

The script builds a table of student records, derives a clamped
`assessment_score`, min-max normalizes five clustering features, runs
k-means with K=3, maps the raw cluster index to a persona string through a
fixed dictionary, drops the transient cluster column and exports the rows.

Numeric values are embedded as rationals (`ℚ`); the tabular data is a list
of records, a feature matrix is a `List (List ℚ)` whose rows correspond to
records in order.  The internals of `sklearn`'s `MinMaxScaler` and `KMeans`
are not part of the repository source, so those two routines are modelled
from the specification (Lloyd iterations with deterministic seed-based
initialization, min-max scaling with the zero-variance policy); everything
else is translated directly from `analysis.py`.
-/

set_option autoImplicit false

namespace StudentDashboard

/-- A raw student record, one row of the DataFrame built in
`analysis.py` lines 29-34 (columns `student_id`, `name`, `class`,
`comprehension`, `attention`, `focus`, `retention`, `assessment_score`,
`engagement_time`). -/
structure StudentRecord where
  student_id : String
  name : String
  class_label : String
  comprehension : ℤ
  attention : ℤ
  focus : ℤ
  retention : ℤ
  assessment_score : ℤ
  engagement_time : ℚ
deriving DecidableEq

/-- A record enriched with the transient cluster index
(`df['persona_cluster']`, line 41) and the persona label
(`df['learning_persona']`, line 44).  `learning_persona` is an `Option`
because `pandas.Series.map` yields a missing value (`NaN`) for a key that
is absent from the dictionary. -/
structure EnrichedRecord where
  student_id : String
  name : String
  class_label : String
  comprehension : ℤ
  attention : ℤ
  focus : ℤ
  retention : ℤ
  assessment_score : ℤ
  engagement_time : ℚ
  persona_cluster : ℕ
  learning_persona : Option String
deriving DecidableEq

/-- One exported row of `student_data.json`: the enriched record minus the
transient `persona_cluster` column (`df_output = df.drop(columns=['persona_cluster'])`,
line 51). -/
structure OutputRecord where
  student_id : String
  name : String
  class_label : String
  comprehension : ℤ
  attention : ℤ
  focus : ℤ
  retention : ℤ
  assessment_score : ℤ
  engagement_time : ℚ
  learning_persona : Option String
deriving DecidableEq

/-! ### Assessment score (lines 21-27)

`assessment_score = np.clip(score_raw.round(0), 0, 100).astype(int)`:
the raw weighted score is rounded (numpy rounds half to even) and then
clipped into [0, 100]. -/

/-- Numpy `round(0)`: round to the nearest integer, halves to the even
neighbour. -/
def npRound (x : ℚ) : ℤ :=
  if x - ⌊x⌋ = 1 / 2 then (if ⌊x⌋ % 2 = 0 then ⌊x⌋ else ⌊x⌋ + 1) else round x

/-- Numpy clip: `np.clip(v, lo, hi) = min(max(v, lo), hi)`. -/
def npClip (v lo hi : ℤ) : ℤ := min (max v lo) hi

/-- Line 27: `assessment_score = np.clip(score_raw.round(0), 0, 100)`. -/
def assessmentScore (raw : ℚ) : ℤ := npClip (npRound raw) 0 100

/-! ### Min-max normalization (lines 37-39)

`MinMaxScaler().fit_transform(df[clustering_features])` rescales each
column linearly onto [0,1] using the column's global min and max; on a
zero-variance column sklearn replaces the zero range by 1, so every value
normalizes to `(v - min)/1 = 0`.  Modelled from the spec: the scaler's
internals are library code, the formula and the zero-variance policy are
taken from §4.1 of the specification (they agree with sklearn's
behaviour). -/

/-- Minimum of a list of rationals (the column-wise `min` used by the
scaler); `0` on the empty list, which the pipeline never passes. -/
def minList : List ℚ → ℚ
  | [] => 0
  | [d] => d
  | d :: e :: ds => min d (minList (e :: ds))

/-- Maximum of a list of rationals. -/
def maxList : List ℚ → ℚ
  | [] => 0
  | [d] => d
  | d :: e :: ds => max d (maxList (e :: ds))

/-- Min-max scale one value `v` against the column `col` it was drawn
from: `(v - min)/(max - min)`, and `0` when the column has zero
variance. -/
def minmaxNorm (col : List ℚ) (v : ℚ) : ℚ :=
  if maxList col = minList col then 0
  else (v - minList col) / (maxList col - minList col)

/-- Column `j` of a row-major feature matrix. -/
def colVals (rows : List (List ℚ)) (j : ℕ) : List ℚ :=
  rows.map (fun row => row.getD j 0)

/-- Line 39, `scaler.fit_transform`: scale every entry of the matrix
against its own column. -/
def normalizeRows (rows : List (List ℚ)) : List (List ℚ) :=
  rows.map (fun row =>
    (List.range row.length).map (fun j => minmaxNorm (colVals rows j) (row.getD j 0)))

/-! ### K-means clustering (lines 40-41)

`KMeans(n_clusters=3, random_state=42, n_init=10).fit_predict(df_scaled)`.
Modelled from the spec: `sklearn`'s k-means implementation is library
code, so the Cluster Assigner is embedded as the Lloyd's-style algorithm
of §4.2 — deterministic seed-based initialization, repeated
nearest-centroid assignment (Euclidean distance, ties to the lowest
centroid index) and centroid recomputation as the mean of the assigned
vectors, an empty cluster retaining its previous centroid, until the
assignment stops changing or the iteration bound (sklearn's default
`max_iter=300`) is hit. -/

/-- Squared Euclidean distance between two feature vectors (squared
distance orders points exactly as Euclidean distance does). -/
def sqDist (a b : List ℚ) : ℚ :=
  (List.zipWith (fun x y => (x - y) ^ 2) a b).sum

/-- Index of the first minimum of a list: the least index holding the
minimal value, so distance ties resolve to the lowest centroid index. -/
def argmin : List ℚ → ℕ
  | [] => 0
  | [_] => 0
  | d :: e :: ds => if d ≤ minList (e :: ds) then 0 else argmin (e :: ds) + 1

/-- Index of the centroid nearest to `v`, ties to the lowest index. -/
def nearestIdx (cs : List (List ℚ)) (v : List ℚ) : ℕ :=
  argmin (cs.map (fun c => sqDist v c))

/-- Assignment step: send every point to its nearest centroid. -/
def assignStep (cs : List (List ℚ)) (pts : List (List ℚ)) : List ℕ :=
  pts.map (nearestIdx cs)

/-- The points currently assigned to cluster `k`. -/
def membersOf (pts : List (List ℚ)) (a : List ℕ) (k : ℕ) : List (List ℚ) :=
  (pts.zip a).filterMap (fun p => if p.2 = k then some p.1 else none)

/-- Componentwise sum of two feature vectors. -/
def vecAdd (a b : List ℚ) : List ℚ := List.zipWith (· + ·) a b

/-- Mean of a nonempty bag of feature vectors (`[]` on the empty bag,
which `centroidStep` never takes the mean of). -/
def meanVec : List (List ℚ) → List ℚ
  | [] => []
  | v :: vs => (vs.foldl vecAdd v).map (fun x => x / ((v :: vs).length : ℚ))

/-- Update step: each centroid becomes the mean of its assigned points;
an empty cluster keeps its previous centroid. -/
def centroidStep (pts : List (List ℚ)) (a : List ℕ) (cs : List (List ℚ)) :
    List (List ℚ) :=
  (List.range cs.length).map (fun k =>
    if membersOf pts a k = [] then cs.getD k [] else meanVec (membersOf pts a k))

/-- Modelled from the spec: `sklearn`'s k-means++/random initialization is
library code; §4.2 only requires initialization to be a deterministic
function of seed, input set and K, so centroid `i` is taken to be the
input point at index `(seed + i) mod n`. -/
def initCentroids (k seed : ℕ) (pts : List (List ℚ)) : List (List ℚ) :=
  (List.range k).map (fun i => pts.getD ((seed + i) % pts.length) [])

/-- One Lloyd refinement loop with an explicit iteration budget.  Returns
the final assignment, the final centroids and whether the loop stopped
because the assignment converged (`true`) rather than because the budget
ran out (`false`). -/
def lloydLoop (fuel : ℕ) (pts : List (List ℚ)) (cs : List (List ℚ)) :
    List ℕ × List (List ℚ) × Bool :=
  match fuel with
  | 0 => (assignStep cs pts, cs, false)
  | fuel + 1 =>
    let a := assignStep cs pts
    let cs' := centroidStep pts a cs
    if assignStep cs' pts = a then (a, cs', true)
    else lloydLoop fuel pts cs'

/-- sklearn's default iteration bound. -/
def maxIter : ℕ := 300

/-- Lines 40-41, `kmeans.fit_predict(df_scaled)`, as the modelled Lloyd
algorithm: K = 3 clusters, deterministic in the seed and the input. -/
def kmeansFit (seed : ℕ) (pts : List (List ℚ)) : List ℕ × List (List ℚ) × Bool :=
  lloydLoop maxIter pts (initCentroids 3 seed pts)

/-! ### Persona labeling (lines 43-44) and export (lines 51-52) -/

/-- Line 43: `persona_names = {0: 'Balanced Average', 1: 'High-Skill
Achiever', 2: 'Low Engagement/Struggler'}`, looked up as a Python
dictionary (`None`/`NaN` on a missing key, as `Series.map` produces). -/
def persona_names (i : ℕ) : Option String :=
  if i = 0 then some "Balanced Average"
  else if i = 1 then some "High-Skill Achiever"
  else if i = 2 then some "Low Engagement/Struggler"
  else none

/-- Line 38: `clustering_features = ['comprehension', 'attention',
'focus', 'retention', 'engagement_time']`. -/
def clustering_features : List String :=
  ["comprehension", "attention", "focus", "retention", "engagement_time"]

/-- Column lookup on a student record: the numeric columns of the
DataFrame built on lines 29-34.  `none` models a `KeyError` on a column
the frame does not have. -/
def featureOf (r : StudentRecord) : String → Option ℚ
  | "comprehension" => some (r.comprehension : ℚ)
  | "attention" => some (r.attention : ℚ)
  | "focus" => some (r.focus : ℚ)
  | "retention" => some (r.retention : ℚ)
  | "engagement_time" => some r.engagement_time
  | "assessment_score" => some (r.assessment_score : ℚ)
  | _ => none

/-- Whether the DataFrame has numeric column `f` (independent of the
record's values: the schema is fixed by the `StudentRecord` structure). -/
def knownFeature (f : String) : Bool :=
  (featureOf { student_id := "", name := "", class_label := "",
                comprehension := 0, attention := 0, focus := 0, retention := 0,
                assessment_score := 0, engagement_time := 0 } f).isSome

/-- Selecting `df[feats]` raises a `KeyError` iff some requested column is missing;
this is the spec's `SchemaError` (§4.1, §7), carrying the offending
column name. -/
structure SchemaError where
  missing : String
deriving DecidableEq

/-- The feature row of one record in `clustering_features` order
(the row extraction performed by `df[clustering_features]`, line 39). -/
def featureRow (feats : List String) (r : StudentRecord) : List ℚ :=
  feats.filterMap (featureOf r)

/-- Line 41 and 44: attach the transient cluster index and the persona
obtained from the fixed dictionary. -/
def enrich (r : StudentRecord) (c : ℕ) : EnrichedRecord :=
  { student_id := r.student_id, name := r.name, class_label := r.class_label,
    comprehension := r.comprehension, attention := r.attention,
    focus := r.focus, retention := r.retention,
    assessment_score := r.assessment_score,
    engagement_time := r.engagement_time,
    persona_cluster := c, learning_persona := persona_names c }

/-- Line 51: `df.drop(columns=['persona_cluster'])` — every §6 output
field is copied unchanged from the enriched record, the transient cluster
index is removed. -/
def exportRecord (e : EnrichedRecord) : OutputRecord :=
  { student_id := e.student_id, name := e.name, class_label := e.class_label,
    comprehension := e.comprehension, attention := e.attention,
    focus := e.focus, retention := e.retention,
    assessment_score := e.assessment_score,
    engagement_time := e.engagement_time,
    learning_persona := e.learning_persona }

/-- Lines 37-52 as one function of the input records and the clustering
seed, generalized over the requested feature list: select the feature
columns (`SchemaError` when one is missing, before any clustering),
min-max scale them, cluster with k-means (K=3), map cluster indices
through `persona_names` and drop the transient index. -/
def runPipelineWith (feats : List String) (seed : ℕ) (rs : List StudentRecord) :
    Except SchemaError (List OutputRecord) :=
  if feats.all knownFeature then
    let rows := rs.map (featureRow feats)
    let scaled := normalizeRows rows
    let assign := (kmeansFit seed scaled).1
    Except.ok ((rs.zip assign).map (fun p => exportRecord (enrich p.1 p.2)))
  else
    Except.error { missing := (feats.filter (fun f => ¬ knownFeature f)).headD "" }

/-- The pipeline exactly as the script runs it, on the five clustering
features of line 38. -/
def runPipeline (seed : ℕ) (rs : List StudentRecord) :
    Except SchemaError (List OutputRecord) :=
  runPipelineWith clustering_features seed rs

/-- The cluster assignment and final centroids the pipeline's clustering
stage produces (used to inspect the centroid profiles behind the
labels). -/
def pipelineClusters (seed : ℕ) (rs : List StudentRecord) :
    List ℕ × List (List ℚ) × Bool :=
  kmeansFit seed (normalizeRows (rs.map (featureRow clustering_features)))

/-- The composite score of a centroid (spec section 4.3): the mean of its (normalized)
feature coordinates. -/
def composite (c : List ℚ) : ℚ := c.sum / (c.length : ℚ)

/-- A two-point data set used to evaluate the clustering claims on a
concrete input. -/
def kmDemoPts : List (List ℚ) := [[1, 1, 1, 1, 1], [0, 0, 0, 0, 0]]

/-- A single concrete input record used to run the whole pipeline in the
witnesses. -/
def demoRec : StudentRecord :=
  { student_id := "S001", name := "Student_1", class_label := "A",
    comprehension := 75, attention := 70, focus := 60, retention := 65,
    assessment_score := 80, engagement_time := 10 }

/-- The output row the pipeline produces for `demoRec`. -/
def demoOut : OutputRecord :=
  { student_id := "S001", name := "Student_1", class_label := "A",
    comprehension := 75, attention := 70, focus := 60, retention := 65,
    assessment_score := 80, engagement_time := 10,
    learning_persona := some "Balanced Average" }

/-- A record with the uniformly highest metrics of the three-record
ranking demo. -/
def hiRec : StudentRecord :=
  { student_id := "S101", name := "Student_H", class_label := "A",
    comprehension := 90, attention := 90, focus := 90, retention := 90,
    assessment_score := 95, engagement_time := 20 }

/-- The middle record of the ranking demo (every normalized feature is
exactly 1/2). -/
def midRec : StudentRecord :=
  { student_id := "S102", name := "Student_M", class_label := "B",
    comprehension := 70, attention := 70, focus := 70, retention := 70,
    assessment_score := 70, engagement_time := 25 / 2 }

/-- The uniformly lowest record of the ranking demo. -/
def loRec : StudentRecord :=
  { student_id := "S103", name := "Student_L", class_label := "C",
    comprehension := 50, attention := 50, focus := 50, retention := 50,
    assessment_score := 40, engagement_time := 5 }

/-- Three records whose composite profiles are strictly ordered
high-middle-low: the input on which the raw-index labeling of line 43 is
compared with the rank-by-composite policy. -/
def rankDemo : List StudentRecord := [hiRec, midRec, loRec]

/-! ### Lemmas and claim theorems -/

theorem minList_le_of_mem {l : List ℚ} {x : ℚ} (hx : x ∈ l) : minList l ≤ x := by
  induction l with
  | nil => cases hx
  | cons d ds ih =>
    cases ds with
    | nil =>
      rcases List.mem_singleton.mp hx with rfl
      exact le_refl _
    | cons e es =>
      rcases List.mem_cons.mp hx with rfl | hmem
      · exact min_le_left _ _
      · exact le_trans (min_le_right _ _) (ih hmem)

theorem le_maxList_of_mem {l : List ℚ} {x : ℚ} (hx : x ∈ l) : x ≤ maxList l := by
  induction l with
  | nil => cases hx
  | cons d ds ih =>
    cases ds with
    | nil =>
      rcases List.mem_singleton.mp hx with rfl
      exact le_refl _
    | cons e es =>
      rcases List.mem_cons.mp hx with rfl | hmem
      · exact le_max_left _ _
      · exact le_trans (ih hmem) (le_max_right _ _)

theorem minmaxNorm_nonneg {col : List ℚ} {v : ℚ} (hv : v ∈ col) :
    0 ≤ minmaxNorm col v := by
  unfold minmaxNorm
  split
  · exact le_refl 0
  · rename_i hne
    have hmin : minList col ≤ v := minList_le_of_mem hv
    have hmax : v ≤ maxList col := le_maxList_of_mem hv
    have hlt : minList col < maxList col :=
      lt_of_le_of_ne (le_trans hmin hmax) (fun h => hne h.symm)
    exact div_nonneg (by linarith) (by linarith)

theorem minmaxNorm_le_one {col : List ℚ} {v : ℚ} (hv : v ∈ col) :
    minmaxNorm col v ≤ 1 := by
  unfold minmaxNorm
  split
  · exact zero_le_one
  · rename_i hne
    have hmin : minList col ≤ v := minList_le_of_mem hv
    have hmax : v ≤ maxList col := le_maxList_of_mem hv
    have hlt : minList col < maxList col :=
      lt_of_le_of_ne (le_trans hmin hmax) (fun h => hne h.symm)
    exact (div_le_one (by linarith)).mpr (by linarith)

theorem normalizeRows_length (rows : List (List ℚ)) :
    (normalizeRows rows).length = rows.length := by
  simp [normalizeRows]

theorem normalizeRows_row_length (rows : List (List ℚ)) (i : ℕ)
    (hi : i < rows.length) :
    ((normalizeRows rows).get ⟨i, by rw [normalizeRows_length]; exact hi⟩).length
      = (rows.get ⟨i, hi⟩).length := by
  simp [normalizeRows]

theorem normalizeRows_entry (rows : List (List ℚ)) (i j : ℕ)
    (hi : i < rows.length) (hj : j < (rows.get ⟨i, hi⟩).length) :
    ((normalizeRows rows).get ⟨i, by rw [normalizeRows_length]; exact hi⟩).getD j 0
      = minmaxNorm (colVals rows j) ((rows.get ⟨i, hi⟩).getD j 0) := by
  have hj' : j < ((normalizeRows rows).get
      ⟨i, by rw [normalizeRows_length]; exact hi⟩).length := by
    rw [normalizeRows_row_length rows i hi]; exact hj
  rw [List.getD_eq_getElem _ _ hj', List.getD_eq_getElem _ _ hj]
  simp [normalizeRows]
  rw [List.getElem?_eq_getElem (by simpa using hj), Option.getD_some]

theorem argmin_lt_length {l : List ℚ} (h : l ≠ []) : argmin l < l.length := by
  induction l with
  | nil => cases h rfl
  | cons d ds ih =>
    cases ds with
    | nil => simp [argmin]
    | cons e es =>
      rw [argmin]
      split
      · simp
      · have := ih (by simp)
        simpa [Nat.succ_lt_succ_iff] using this

theorem get_argmin_eq_minList {l : List ℚ} (h : l ≠ []) :
    l.getD (argmin l) 0 = minList l := by
  induction l with
  | nil => cases h rfl
  | cons d ds ih =>
    cases ds with
    | nil => simp [argmin, minList]
    | cons e es =>
      rw [argmin, minList]
      split
      · rename_i hle
        simpa using (min_eq_left hle).symm
      · rename_i hlt
        have hmin : min d (minList (e :: es)) = minList (e :: es) :=
          min_eq_right (le_of_lt (lt_of_not_le hlt))
        rw [hmin]
        simpa using ih (by simp)

theorem minList_lt_of_lt_argmin {l : List ℚ} {j : ℕ} (hj : j < argmin l) :
    minList l < l.getD j 0 := by
  induction l generalizing j with
  | nil => simp [argmin] at hj
  | cons d ds ih =>
    cases ds with
    | nil => simp [argmin] at hj
    | cons e es =>
      rw [argmin] at hj
      split at hj
      · exact absurd hj (Nat.not_lt_zero j)
      · rename_i hlt
        have hdm : minList (e :: es) < d := lt_of_not_le hlt
        rw [minList, min_eq_right (le_of_lt hdm)]
        cases j with
        | zero => simpa using hdm
        | succ j' =>
          have := ih (Nat.lt_of_succ_lt_succ hj)
          simpa using this

theorem nearestIdx_lt {cs : List (List ℚ)} (h : cs ≠ []) (v : List ℚ) :
    nearestIdx cs v < cs.length := by
  have := argmin_lt_length (l := cs.map (fun c => sqDist v c)) (by simpa using h)
  simpa using this

theorem nearestIdx_le (cs : List (List ℚ)) (v : List ℚ) (j : ℕ)
    (hj : j < cs.length) :
    sqDist v (cs.getD (nearestIdx cs v) []) ≤ sqDist v (cs.getD j []) := by
  have hne : cs ≠ [] := by
    intro hnil; rw [hnil] at hj; exact absurd hj (by simp)
  have hlt := nearestIdx_lt hne v
  have hmap : (cs.map (fun c => sqDist v c)).getD (nearestIdx cs v) 0
      = sqDist v (cs.getD (nearestIdx cs v) []) := by
    rw [List.getD_eq_getElem _ _ (by simpa using hlt),
      List.getD_eq_getElem _ _ hlt, List.getElem_map]
  have hmapj : (cs.map (fun c => sqDist v c)).getD j 0 = sqDist v (cs.getD j []) := by
    rw [List.getD_eq_getElem _ _ (by simpa using hj),
      List.getD_eq_getElem _ _ hj, List.getElem_map]
  have hmem : (cs.map (fun c => sqDist v c)).getD j 0
      ∈ cs.map (fun c => sqDist v c) := by
    rw [List.getD_eq_getElem _ _ (by simpa using hj)]
    exact List.getElem_mem _
  calc sqDist v (cs.getD (nearestIdx cs v) [])
      = minList (cs.map (fun c => sqDist v c)) := by
        rw [← hmap]
        exact get_argmin_eq_minList (by simpa using hne)
    _ ≤ (cs.map (fun c => sqDist v c)).getD j 0 := minList_le_of_mem hmem
    _ = sqDist v (cs.getD j []) := hmapj

theorem nearestIdx_tie_lowest (cs : List (List ℚ)) (v : List ℚ) (j : ℕ)
    (hj : j < nearestIdx cs v) :
    sqDist v (cs.getD (nearestIdx cs v) []) < sqDist v (cs.getD j []) := by
  have hne : cs ≠ [] := by
    intro hnil
    rw [hnil] at hj
    simp [nearestIdx, argmin] at hj
  have hlt := nearestIdx_lt hne v
  have hjlen : j < cs.length := lt_trans hj hlt
  have hmap : (cs.map (fun c => sqDist v c)).getD (nearestIdx cs v) 0
      = sqDist v (cs.getD (nearestIdx cs v) []) := by
    rw [List.getD_eq_getElem _ _ (by simpa using hlt),
      List.getD_eq_getElem _ _ hlt, List.getElem_map]
  have hmapj : (cs.map (fun c => sqDist v c)).getD j 0 = sqDist v (cs.getD j []) := by
    rw [List.getD_eq_getElem _ _ (by simpa using hjlen),
      List.getD_eq_getElem _ _ hjlen, List.getElem_map]
  have hmin := minList_lt_of_lt_argmin (l := cs.map (fun c => sqDist v c)) hj
  rw [hmapj] at hmin
  have heq : sqDist v (cs.getD (nearestIdx cs v) [])
      = minList (cs.map (fun c => sqDist v c)) := by
    rw [← hmap]
    exact get_argmin_eq_minList (by simpa using hne)
  rw [heq]
  exact hmin

theorem assignStep_length (cs pts : List (List ℚ)) :
    (assignStep cs pts).length = pts.length := by
  simp [assignStep]

theorem centroidStep_length (pts : List (List ℚ)) (a : List ℕ)
    (cs : List (List ℚ)) : (centroidStep pts a cs).length = cs.length := by
  simp [centroidStep]

theorem centroidStep_get (pts : List (List ℚ)) (a : List ℕ)
    (cs : List (List ℚ)) (k : ℕ) (hk : k < cs.length) :
    (centroidStep pts a cs).getD k []
      = if membersOf pts a k = [] then cs.getD k [] else meanVec (membersOf pts a k) := by
  rw [List.getD_eq_getElem _ _ (by simpa [centroidStep_length] using hk)]
  simp [centroidStep]

/-- Invariant of the Lloyd loop: the centroid count is preserved, the
returned assignment is exactly the nearest-centroid assignment against the
returned centroids, and when the loop reports convergence every non-empty
cluster's centroid is the mean of its assigned points. -/
theorem lloydLoop_spec (fuel : ℕ) (pts cs : List (List ℚ)) :
    ((lloydLoop fuel pts cs).2.1.length = cs.length)
    ∧ ((lloydLoop fuel pts cs).1 = assignStep (lloydLoop fuel pts cs).2.1 pts)
    ∧ ((lloydLoop fuel pts cs).2.2 = true →
        ∀ k, k < cs.length → membersOf pts (lloydLoop fuel pts cs).1 k ≠ [] →
          (lloydLoop fuel pts cs).2.1.getD k []
            = meanVec (membersOf pts (lloydLoop fuel pts cs).1 k)) := by
  induction fuel generalizing cs with
  | zero =>
    refine ⟨rfl, rfl, ?_⟩
    intro h
    simp [lloydLoop] at h
  | succ n ih =>
    rw [lloydLoop]
    split
    · rename_i hconv
      refine ⟨centroidStep_length pts _ cs, hconv.symm, ?_⟩
      intro _ k hk hne
      rw [centroidStep_get pts _ cs k hk]
      simp [hne]
    · rename_i hconv
      have hlen := (ih (centroidStep pts (assignStep cs pts) cs)).1
      rw [centroidStep_length] at hlen
      refine ⟨hlen, (ih _).2.1, ?_⟩
      intro hc k hk hne
      exact (ih _).2.2 hc k (by rwa [centroidStep_length]) hne

theorem lloydLoop_assign_length (fuel : ℕ) (pts cs : List (List ℚ)) :
    (lloydLoop fuel pts cs).1.length = pts.length := by
  rw [(lloydLoop_spec fuel pts cs).2.1, assignStep_length]

theorem initCentroids_length (k seed : ℕ) (pts : List (List ℚ)) :
    (initCentroids k seed pts).length = k := by
  simp [initCentroids]

theorem runPipeline_eq (seed : ℕ) (rs : List StudentRecord) :
    runPipeline seed rs
      = Except.ok ((rs.zip (kmeansFit seed
          (normalizeRows (rs.map (featureRow clustering_features)))).1).map
            (fun p => exportRecord (enrich p.1 p.2))) := by
  rw [runPipeline, runPipelineWith,
    if_pos (show clustering_features.all knownFeature = true by decide)]

/-! ### Helper lemmas about the assembled pipeline -/

/-- Unfolding lemma: a Lloyd iteration that immediately reproduces its own
assignment stops with that assignment, the recomputed centroids and the
converged flag (used to evaluate `kmeansFit` on concrete inputs without
unrolling the full iteration budget). -/
theorem lloydLoop_succ_converged {pts cs : List (List ℚ)} (fuel : ℕ)
    (h : assignStep (centroidStep pts (assignStep cs pts) cs) pts = assignStep cs pts) :
    lloydLoop (fuel + 1) pts cs
      = (assignStep cs pts, centroidStep pts (assignStep cs pts) cs, true) := by
  rw [lloydLoop]
  simp [h]

theorem assignStep_getD (cs pts : List (List ℚ)) (i : ℕ) (hi : i < pts.length) :
    (assignStep cs pts).getD i 0 = nearestIdx cs (pts.getD i []) := by
  rw [List.getD_eq_getElem _ _ (by simpa [assignStep] using hi),
    List.getD_eq_getElem _ _ hi]
  simp [assignStep]

theorem kmeansFit_assign_length (seed : ℕ) (pts : List (List ℚ)) :
    (kmeansFit seed pts).1.length = pts.length := by
  rw [kmeansFit]
  exact lloydLoop_assign_length _ _ _

theorem kmeansFit_centroids_length (seed : ℕ) (pts : List (List ℚ)) :
    (kmeansFit seed pts).2.1.length = 3 := by
  rw [kmeansFit, (lloydLoop_spec maxIter pts (initCentroids 3 seed pts)).1,
    initCentroids_length]

theorem kmeansFit_centroids_ne_nil (seed : ℕ) (pts : List (List ℚ)) :
    (kmeansFit seed pts).2.1 ≠ [] := by
  intro h
  have := kmeansFit_centroids_length seed pts
  rw [h] at this
  simp at this

theorem kmeansFit_assign_eq (seed : ℕ) (pts : List (List ℚ)) :
    (kmeansFit seed pts).1 = assignStep (kmeansFit seed pts).2.1 pts := by
  rw [kmeansFit]
  exact (lloydLoop_spec maxIter pts (initCentroids 3 seed pts)).2.1

theorem kmeans_assign_lt_three (seed : ℕ) (pts : List (List ℚ)) :
    ∀ x ∈ (kmeansFit seed pts).1, x < 3 := by
  intro x hx
  rw [kmeansFit_assign_eq] at hx
  obtain ⟨v, _, rfl⟩ := List.mem_map.mp hx
  rw [← kmeansFit_centroids_length seed pts]
  exact nearestIdx_lt (kmeansFit_centroids_ne_nil seed pts) v

/-! ### The claims -/

/-- Claim C2: the Cluster Assigner partitions the normalized vectors into
K=3 groups by Lloyd iteration.  On termination the assignment list is as
long as the point list, every assigned index lies in [0,2], each point is
assigned to the nearest centroid under (squared) Euclidean distance —
weakly closer than every centroid, strictly closer than every centroid of
lower index, which is exactly the lowest-index tie-break — and, when the
loop stopped because the assignment converged, every non-empty cluster's
centroid is the mean of its assigned vectors. -/
theorem kmeans_cluster_assignment (seed : ℕ) (pts : List (List ℚ)) :
    (kmeansFit seed pts).1.length = pts.length
    ∧ (kmeansFit seed pts).2.1.length = 3
    ∧ (∀ i, i < pts.length → (kmeansFit seed pts).1.getD i 0 < 3)
    ∧ (∀ i, i < pts.length →
        (kmeansFit seed pts).1.getD i 0
          = nearestIdx (kmeansFit seed pts).2.1 (pts.getD i []))
    ∧ (∀ i j, i < pts.length → j < 3 →
        sqDist (pts.getD i [])
            ((kmeansFit seed pts).2.1.getD ((kmeansFit seed pts).1.getD i 0) [])
          ≤ sqDist (pts.getD i []) ((kmeansFit seed pts).2.1.getD j []))
    ∧ (∀ i j, i < pts.length → j < (kmeansFit seed pts).1.getD i 0 →
        sqDist (pts.getD i [])
            ((kmeansFit seed pts).2.1.getD ((kmeansFit seed pts).1.getD i 0) [])
          < sqDist (pts.getD i []) ((kmeansFit seed pts).2.1.getD j []))
    ∧ ((kmeansFit seed pts).2.2 = true →
        ∀ k, k < 3 → membersOf pts (kmeansFit seed pts).1 k ≠ [] →
          (kmeansFit seed pts).2.1.getD k []
            = meanVec (membersOf pts (kmeansFit seed pts).1 k)) := by
  have hB := kmeansFit_centroids_length seed pts
  have hne := kmeansFit_centroids_ne_nil seed pts
  have hD : ∀ i, i < pts.length →
      (kmeansFit seed pts).1.getD i 0
        = nearestIdx (kmeansFit seed pts).2.1 (pts.getD i []) := by
    intro i hi
    rw [kmeansFit_assign_eq]
    exact assignStep_getD _ pts i hi
  refine ⟨kmeansFit_assign_length seed pts, hB, ?_, hD, ?_, ?_, ?_⟩
  · intro i hi
    rw [hD i hi, ← hB]
    exact nearestIdx_lt hne _
  · intro i j hi hj
    rw [hD i hi]
    exact nearestIdx_le _ _ j (by rw [hB]; exact hj)
  · intro i j hi hj
    rw [hD i hi] at hj ⊢
    exact nearestIdx_tie_lowest _ _ j hj
  · intro hc k hk hne'
    rw [kmeansFit] at hc hne' ⊢
    exact (lloydLoop_spec maxIter pts (initCentroids 3 seed pts)).2.2 hc k
      (by rw [initCentroids_length]; exact hk) hne'

theorem kmDemoPts_eval :
    kmeansFit 0 kmDemoPts
      = ([0, 1], [[1, 1, 1, 1, 1], [0, 0, 0, 0, 0], [1, 1, 1, 1, 1]], true) := by
  have hinit : initCentroids 3 0 kmDemoPts
      = [[1, 1, 1, 1, 1], [0, 0, 0, 0, 0], [1, 1, 1, 1, 1]] := by
    norm_num [initCentroids, kmDemoPts, List.range_succ]
  have ha : assignStep [[1, 1, 1, 1, 1], [0, 0, 0, 0, 0], [1, 1, 1, 1, 1]] kmDemoPts
      = [0, 1] := by
    norm_num [assignStep, kmDemoPts, nearestIdx, argmin, sqDist, minList]
  have hc : centroidStep kmDemoPts [0, 1]
        [[1, 1, 1, 1, 1], [0, 0, 0, 0, 0], [1, 1, 1, 1, 1]]
      = [[1, 1, 1, 1, 1], [0, 0, 0, 0, 0], [1, 1, 1, 1, 1]] := by
    norm_num [centroidStep, membersOf, meanVec, vecAdd, kmDemoPts, List.range_succ,
      List.filterMap_cons, List.filterMap_nil]
  rw [kmeansFit, maxIter, hinit, show (300 : ℕ) = 299 + 1 from rfl,
    lloydLoop_succ_converged 299 (by rw [ha, hc, ha]), ha, hc]

/-- Witness for C2: on a concrete two-point input the assigned index of
point 0 is in range, point 0 sits no farther from its own centroid than
from centroid 1, and the converged cluster 0 centroid is the mean of its
members. -/
theorem kmeans_cluster_assignment_witness :
    ((kmeansFit 0 kmDemoPts).1.getD 0 0 < 3)
    ∧ (sqDist (kmDemoPts.getD 0 [])
          ((kmeansFit 0 kmDemoPts).2.1.getD ((kmeansFit 0 kmDemoPts).1.getD 0 0) [])
        ≤ sqDist (kmDemoPts.getD 0 []) ((kmeansFit 0 kmDemoPts).2.1.getD 1 []))
    ∧ ((kmeansFit 0 kmDemoPts).2.1.getD 0 []
        = meanVec (membersOf kmDemoPts (kmeansFit 0 kmDemoPts).1 0)) := by
  refine ⟨(kmeans_cluster_assignment 0 kmDemoPts).2.2.1 0 (by decide),
    (kmeans_cluster_assignment 0 kmDemoPts).2.2.2.2.1 0 1 (by decide) (by decide),
    (kmeans_cluster_assignment 0 kmDemoPts).2.2.2.2.2.2 ?_ 0 (by decide) ?_⟩
  · rw [kmDemoPts_eval]
  · rw [kmDemoPts_eval]
    simp [membersOf, kmDemoPts, List.filterMap_cons, List.filterMap_nil]

/-- Claim C3: the Feature Normalizer computes
`(value - min)/(max - min)` per feature with the run-global column min
and max, yields exactly 0 on a zero-variance column instead of raising,
and every normalized entry of the scaled matrix lies in [0,1]. -/
theorem minmax_normalization_bounds :
    (∀ (rows : List (List ℚ)) (i j : ℕ) (hi : i < rows.length)
        (hj : j < (rows.get ⟨i, hi⟩).length),
        ((normalizeRows rows).get ⟨i, by rw [normalizeRows_length]; exact hi⟩).getD j 0
          = minmaxNorm (colVals rows j) ((rows.get ⟨i, hi⟩).getD j 0))
    ∧ (∀ (col : List ℚ) (v : ℚ), maxList col = minList col → minmaxNorm col v = 0)
    ∧ (∀ (col : List ℚ) (v : ℚ), maxList col ≠ minList col →
        minmaxNorm col v = (v - minList col) / (maxList col - minList col))
    ∧ (∀ (rows : List (List ℚ)) (i j : ℕ) (hi : i < rows.length)
        (hj : j < (rows.get ⟨i, hi⟩).length),
        0 ≤ ((normalizeRows rows).get
              ⟨i, by rw [normalizeRows_length]; exact hi⟩).getD j 0
        ∧ ((normalizeRows rows).get
              ⟨i, by rw [normalizeRows_length]; exact hi⟩).getD j 0 ≤ 1) := by
  refine ⟨fun rows i j hi hj => normalizeRows_entry rows i j hi hj,
    fun col v h => by simp [minmaxNorm, h], fun col v h => by simp [minmaxNorm, h],
    fun rows i j hi hj => ?_⟩
  rw [normalizeRows_entry rows i j hi hj]
  have hmem : (rows.get ⟨i, hi⟩).getD j 0 ∈ colVals rows j :=
    List.mem_map_of_mem (fun row => row.getD j 0) (List.get_mem rows i hi)
  exact ⟨minmaxNorm_nonneg hmem, minmaxNorm_le_one hmem⟩

/-- Witness for C3: on the concrete column `[0, 2]` the scaled entry of
row 0 is in [0,1], and a constant column normalizes to exactly 0. -/
theorem minmax_normalization_bounds_witness :
    (minmaxNorm [1, 1] 1 = 0)
    ∧ (0 ≤ ((normalizeRows [[0], [2]]).get ⟨0, by decide⟩).getD 0 0
        ∧ ((normalizeRows [[0], [2]]).get ⟨0, by decide⟩).getD 0 0 ≤ 1) :=
  ⟨minmax_normalization_bounds.2.1 [1, 1] 1 (by norm_num [maxList, minList]),
   minmax_normalization_bounds.2.2.2 [[0], [2]] 0 0 (by decide) (by decide)⟩

theorem demoRows_eval :
    [demoRec].map (featureRow clustering_features) = [[75, 70, 60, 65, 10]] := by
  norm_num [featureRow, clustering_features, featureOf, demoRec,
    List.filterMap_cons, List.filterMap_nil]

theorem demoScaled_eval :
    normalizeRows [[75, 70, 60, 65, 10]] = [[0, 0, 0, 0, 0]] := by
  norm_num [normalizeRows, colVals, minmaxNorm, minList, maxList, List.range_succ,
    List.replicate_succ]

theorem demoKm_eval :
    kmeansFit 0 [[0, 0, 0, 0, 0]]
      = ([0], [[0, 0, 0, 0, 0], [0, 0, 0, 0, 0], [0, 0, 0, 0, 0]], true) := by
  have hinit : initCentroids 3 0 [[0, 0, 0, 0, 0]]
      = [[0, 0, 0, 0, 0], [0, 0, 0, 0, 0], [0, 0, 0, 0, 0]] := by
    norm_num [initCentroids, List.range_succ]
  have ha : assignStep [[0, 0, 0, 0, 0], [0, 0, 0, 0, 0], [0, 0, 0, 0, 0]]
      [[0, 0, 0, 0, 0]] = [0] := by
    norm_num [assignStep, nearestIdx, argmin, sqDist, minList]
  have hc : centroidStep [[0, 0, 0, 0, 0]] [0]
        [[0, 0, 0, 0, 0], [0, 0, 0, 0, 0], [0, 0, 0, 0, 0]]
      = [[0, 0, 0, 0, 0], [0, 0, 0, 0, 0], [0, 0, 0, 0, 0]] := by
    norm_num [centroidStep, membersOf, meanVec, vecAdd, List.range_succ,
      List.filterMap_cons, List.filterMap_nil]
  rw [kmeansFit, maxIter, hinit, show (300 : ℕ) = 299 + 1 from rfl,
    lloydLoop_succ_converged 299 (by rw [ha, hc, ha]), ha, hc]

theorem demoRun_eval : runPipeline 0 [demoRec] = Except.ok [demoOut] := by
  rw [runPipeline_eq, demoRows_eval, demoScaled_eval, demoKm_eval]
  simp [enrich, exportRecord, persona_names, demoRec, demoOut]

/-- Claim C4: the pipeline is deterministic — a fixed input record set and
a fixed seed fully determine the output, so two runs on the same data
agree (the embedded pipeline takes the seed explicitly; the script pins it
with `np.random.seed(42)` and `random_state=42`). -/
theorem pipeline_deterministic (seed₁ seed₂ : ℕ) (rs₁ rs₂ : List StudentRecord)
    (hseed : seed₁ = seed₂) (hrs : rs₁ = rs₂) :
    runPipeline seed₁ rs₁ = runPipeline seed₂ rs₂ := by
  rw [hseed, hrs]

/-- Witness for C4: two concrete runs on the same record and seed 42
produce the same output. -/
theorem pipeline_deterministic_witness :
    runPipeline 42 [demoRec] = runPipeline 42 [demoRec] :=
  pipeline_deterministic 42 42 [demoRec] [demoRec] rfl rfl

/-- Claim C5: every exported record carries one of the three fixed persona
strings — the labeling step is total because every cluster index produced
by the Cluster Assigner lies in [0,2] and the dictionary covers exactly
those keys. -/
theorem persona_label_total (seed : ℕ) (rs : List StudentRecord)
    (out : List OutputRecord) (hout : runPipeline seed rs = Except.ok out)
    (o : OutputRecord) (ho : o ∈ out) :
    o.learning_persona = some "Balanced Average"
    ∨ o.learning_persona = some "High-Skill Achiever"
    ∨ o.learning_persona = some "Low Engagement/Struggler" := by
  rw [runPipeline_eq] at hout
  obtain rfl := Except.ok.inj hout
  obtain ⟨p, hp, rfl⟩ := List.mem_map.mp ho
  obtain ⟨r, c⟩ := p
  have hc : c < 3 := kmeans_assign_lt_three seed _ c (List.of_mem_zip hp).2
  interval_cases c
  · exact Or.inl rfl
  · exact Or.inr (Or.inl rfl)
  · exact Or.inr (Or.inr rfl)

/-- Witness for C5: the record exported for `demoRec` carries one of the
three fixed persona strings. -/
theorem persona_label_total_witness :
    demoOut.learning_persona = some "Balanced Average"
    ∨ demoOut.learning_persona = some "High-Skill Achiever"
    ∨ demoOut.learning_persona = some "Low Engagement/Struggler" :=
  persona_label_total 0 [demoRec] [demoOut] demoRun_eval demoOut
    (List.mem_singleton.mpr rfl)

/-- Claim C6: `assessment_score` is the raw score rounded and then clipped
into [0,100] — the clamp holds for every possible raw value, and the
pipeline copies the field unchanged, so bounded inputs give bounded
outputs. -/
theorem assessment_score_range :
    (∀ raw : ℚ, 0 ≤ assessmentScore raw ∧ assessmentScore raw ≤ 100)
    ∧ (∀ (seed : ℕ) (rs : List StudentRecord) (out : List OutputRecord),
        runPipeline seed rs = Except.ok out →
        (∀ r ∈ rs, 0 ≤ r.assessment_score ∧ r.assessment_score ≤ 100) →
        ∀ o ∈ out, 0 ≤ o.assessment_score ∧ o.assessment_score ≤ 100) := by
  constructor
  · intro raw
    unfold assessmentScore npClip
    exact ⟨le_min (le_max_right _ _) (by norm_num), min_le_right _ _⟩
  · intro seed rs out hout hin o ho
    rw [runPipeline_eq] at hout
    obtain rfl := Except.ok.inj hout
    obtain ⟨p, hp, rfl⟩ := List.mem_map.mp ho
    obtain ⟨r, c⟩ := p
    exact hin r (List.of_mem_zip hp).1

/-- Witness for C6: a raw score above the ceiling clamps into range, and
the concrete pipeline output keeps its score in [0,100]. -/
theorem assessment_score_range_witness :
    (0 ≤ assessmentScore (201 / 2) ∧ assessmentScore (201 / 2) ≤ 100)
    ∧ (0 ≤ demoOut.assessment_score ∧ demoOut.assessment_score ≤ 100) :=
  ⟨assessment_score_range.1 (201 / 2),
   assessment_score_range.2 0 [demoRec] [demoOut] demoRun_eval
     (fun r hr => by
       rw [List.mem_singleton.mp hr]
       exact ⟨by decide, by decide⟩)
     demoOut (List.mem_singleton.mpr rfl)⟩

/-- Claim C7: the output sequence has the same length as the input and
record N of the output is record N of the input — every carried field
agrees index by index, so no stage reorders or drops records. -/
theorem pipeline_preserves_order (seed : ℕ) (rs : List StudentRecord)
    (out : List OutputRecord) (hout : runPipeline seed rs = Except.ok out) :
    out.length = rs.length
    ∧ (∀ i (hi : i < out.length) (hi' : i < rs.length),
        (out.get ⟨i, hi⟩).student_id = (rs.get ⟨i, hi'⟩).student_id
        ∧ (out.get ⟨i, hi⟩).name = (rs.get ⟨i, hi'⟩).name
        ∧ (out.get ⟨i, hi⟩).class_label = (rs.get ⟨i, hi'⟩).class_label
        ∧ (out.get ⟨i, hi⟩).comprehension = (rs.get ⟨i, hi'⟩).comprehension
        ∧ (out.get ⟨i, hi⟩).attention = (rs.get ⟨i, hi'⟩).attention
        ∧ (out.get ⟨i, hi⟩).focus = (rs.get ⟨i, hi'⟩).focus
        ∧ (out.get ⟨i, hi⟩).retention = (rs.get ⟨i, hi'⟩).retention
        ∧ (out.get ⟨i, hi⟩).assessment_score = (rs.get ⟨i, hi'⟩).assessment_score
        ∧ (out.get ⟨i, hi⟩).engagement_time = (rs.get ⟨i, hi'⟩).engagement_time) := by
  rw [runPipeline_eq] at hout
  obtain rfl := Except.ok.inj hout
  have hlen : (rs.zip (kmeansFit seed
      (normalizeRows (rs.map (featureRow clustering_features)))).1).length
        = rs.length := by
    rw [List.length_zip, kmeansFit_assign_length, normalizeRows_length,
      List.length_map, Nat.min_self]
  constructor
  · simpa using hlen
  · intro i hi hi'
    simp only [List.get_eq_getElem, List.getElem_map, List.getElem_zip]
    exact ⟨rfl, rfl, rfl, rfl, rfl, rfl, rfl, rfl, rfl⟩

/-- Witness for C7: on the one-record input the output has the same
length and the same `student_id` at index 0. -/
theorem pipeline_preserves_order_witness :
    ([demoOut].length = [demoRec].length)
    ∧ ([demoOut].get ⟨0, by decide⟩).student_id
        = ([demoRec].get ⟨0, by decide⟩).student_id :=
  ⟨(pipeline_preserves_order 0 [demoRec] [demoOut] demoRun_eval).1,
   ((pipeline_preserves_order 0 [demoRec] [demoOut] demoRun_eval).2 0
     (by decide) (by decide)).1⟩

/-- Claim C8: with a feature missing from the record schema the pipeline
stops with a `SchemaError` (the `Except.error` is produced by the schema
check, before the clustering stage is ever entered), while on the script's
actual feature list the error branch is unreachable and the run always
returns `Except.ok`. -/
theorem schema_error_on_missing_feature :
    (∀ (feats : List String) (seed : ℕ) (rs : List StudentRecord) (f : String),
        f ∈ feats → knownFeature f = false →
        runPipelineWith feats seed rs
          = Except.error
              { missing := (feats.filter (fun g => ¬ knownFeature g)).headD "" })
    ∧ (∀ (seed : ℕ) (rs : List StudentRecord),
        runPipeline seed rs
          = Except.ok ((rs.zip (pipelineClusters seed rs).1).map
              (fun p => exportRecord (enrich p.1 p.2)))) := by
  constructor
  · intro feats seed rs f hf hk
    have hall : ¬ (feats.all knownFeature = true) := by
      intro hall
      have := List.all_eq_true.mp hall f hf
      rw [hk] at this
      cases this
    rw [runPipelineWith, if_neg hall]
  · intro seed rs
    exact runPipeline_eq seed rs

/-- Witness for C8: requesting the absent column `mystery` yields a
`SchemaError` naming it, and the real feature list yields a successful
run on the empty record set. -/
theorem schema_error_on_missing_feature_witness :
    (runPipelineWith ["mystery"] 0 [] = Except.error { missing := "mystery" })
    ∧ (runPipeline 0 [] = Except.ok []) := by
  constructor
  · exact schema_error_on_missing_feature.1 ["mystery"] 0 [] "mystery"
      (List.mem_singleton.mpr rfl) rfl
  · have h := schema_error_on_missing_feature.2 0 []
    simpa using h

/-- Claim C9: exporting copies every §6 output field of the enriched
record unchanged — `student_id`, `name`, `class`, the four metric columns,
`assessment_score`, `engagement_time` and `learning_persona` — and the
`OutputRecord` carries no `persona_cluster` field: dropping the transient
index changes nothing else. -/
theorem export_drops_only_cluster_index (r : StudentRecord) (c : ℕ) :
    (exportRecord (enrich r c)).student_id = r.student_id
    ∧ (exportRecord (enrich r c)).name = r.name
    ∧ (exportRecord (enrich r c)).class_label = r.class_label
    ∧ (exportRecord (enrich r c)).comprehension = r.comprehension
    ∧ (exportRecord (enrich r c)).attention = r.attention
    ∧ (exportRecord (enrich r c)).focus = r.focus
    ∧ (exportRecord (enrich r c)).retention = r.retention
    ∧ (exportRecord (enrich r c)).assessment_score = r.assessment_score
    ∧ (exportRecord (enrich r c)).engagement_time = r.engagement_time
    ∧ (exportRecord (enrich r c)).learning_persona = (enrich r c).learning_persona :=
  ⟨rfl, rfl, rfl, rfl, rfl, rfl, rfl, rfl, rfl, rfl⟩

/-- Claim C10: the persona label is a function of the cluster index alone
— two records with the same index get the same label — and the
index-to-label dictionary is injective on the three indices the clustering
can produce. -/
theorem persona_function_of_cluster (r₁ r₂ : StudentRecord) (c i j : ℕ)
    (hi : i < 3) (hj : j < 3) :
    ((enrich r₁ c).learning_persona = (enrich r₂ c).learning_persona)
    ∧ (persona_names i = persona_names j ↔ i = j) := by
  refine ⟨rfl, ?_⟩
  interval_cases i <;> interval_cases j <;> decide

/-- Witness for C10: records sharing cluster index 0 share the label, and
indices 0 and 1 get different labels. -/
theorem persona_function_of_cluster_witness :
    ((enrich demoRec 0).learning_persona = (enrich demoRec 0).learning_persona)
    ∧ (persona_names 0 = persona_names 1 ↔ 0 = 1) :=
  persona_function_of_cluster demoRec demoRec 0 0 1 (by decide) (by decide)

theorem rankRows_eval :
    rankDemo.map (featureRow clustering_features)
      = [[90, 90, 90, 90, 20], [70, 70, 70, 70, 25 / 2], [50, 50, 50, 50, 5]] := by
  norm_num [rankDemo, featureRow, clustering_features, featureOf, hiRec, midRec,
    loRec, List.filterMap_cons, List.filterMap_nil]

theorem rankScaled_eval :
    normalizeRows
        [[90, 90, 90, 90, 20], [70, 70, 70, 70, 25 / 2], [50, 50, 50, 50, 5]]
      = [[1, 1, 1, 1, 1], [1 / 2, 1 / 2, 1 / 2, 1 / 2, 1 / 2], [0, 0, 0, 0, 0]] := by
  norm_num [normalizeRows, colVals, minmaxNorm, minList, maxList, List.range_succ,
    List.replicate_succ]

theorem rankKm_eval :
    kmeansFit 0 [[1, 1, 1, 1, 1], [1 / 2, 1 / 2, 1 / 2, 1 / 2, 1 / 2], [0, 0, 0, 0, 0]]
      = ([0, 1, 2],
          [[1, 1, 1, 1, 1], [1 / 2, 1 / 2, 1 / 2, 1 / 2, 1 / 2], [0, 0, 0, 0, 0]],
          true) := by
  have hinit : initCentroids 3 0
        [[1, 1, 1, 1, 1], [1 / 2, 1 / 2, 1 / 2, 1 / 2, 1 / 2], [0, 0, 0, 0, 0]]
      = [[1, 1, 1, 1, 1], [1 / 2, 1 / 2, 1 / 2, 1 / 2, 1 / 2], [0, 0, 0, 0, 0]] := by
    norm_num [initCentroids, List.range_succ]
  have ha : assignStep
        [[1, 1, 1, 1, 1], [1 / 2, 1 / 2, 1 / 2, 1 / 2, 1 / 2], [0, 0, 0, 0, 0]]
        [[1, 1, 1, 1, 1], [1 / 2, 1 / 2, 1 / 2, 1 / 2, 1 / 2], [0, 0, 0, 0, 0]]
      = [0, 1, 2] := by
    norm_num [assignStep, nearestIdx, argmin, sqDist, minList]
  have hc : centroidStep
        [[1, 1, 1, 1, 1], [1 / 2, 1 / 2, 1 / 2, 1 / 2, 1 / 2], [0, 0, 0, 0, 0]]
        [0, 1, 2]
        [[1, 1, 1, 1, 1], [1 / 2, 1 / 2, 1 / 2, 1 / 2, 1 / 2], [0, 0, 0, 0, 0]]
      = [[1, 1, 1, 1, 1], [1 / 2, 1 / 2, 1 / 2, 1 / 2, 1 / 2], [0, 0, 0, 0, 0]] := by
    norm_num [centroidStep, membersOf, meanVec, vecAdd, List.range_succ,
      List.filterMap_cons, List.filterMap_nil]
  rw [kmeansFit, maxIter, hinit, show (300 : ℕ) = 299 + 1 from rfl,
    lloydLoop_succ_converged 299 (by rw [ha, hc, ha]), ha, hc]

/-- Claim C1 fails on the code: on `rankDemo` the clustering assigns the
uniformly-highest record to cluster 0, whose centroid has the strictly
highest composite score, yet line 43's literal dictionary labels it
`Balanced Average` (and gives `High-Skill Achiever` to the middle
cluster): the persona follows the raw integer cluster index, not the
cluster's composite-score rank. -/
theorem persona_label_ignores_composite_rank :
    (pipelineClusters 0 rankDemo).1 = [0, 1, 2]
    ∧ composite ((pipelineClusters 0 rankDemo).2.1.getD 1 [])
        < composite ((pipelineClusters 0 rankDemo).2.1.getD 0 [])
    ∧ composite ((pipelineClusters 0 rankDemo).2.1.getD 2 [])
        < composite ((pipelineClusters 0 rankDemo).2.1.getD 0 [])
    ∧ runPipeline 0 rankDemo
        = Except.ok [exportRecord (enrich hiRec 0), exportRecord (enrich midRec 1),
            exportRecord (enrich loRec 2)]
    ∧ (exportRecord (enrich hiRec 0)).learning_persona = some "Balanced Average"
    ∧ (exportRecord (enrich midRec 1)).learning_persona = some "High-Skill Achiever"
    ∧ (exportRecord (enrich hiRec 0)).learning_persona ≠ some "High-Skill Achiever" := by
  have hclusters : pipelineClusters 0 rankDemo
      = ([0, 1, 2],
          [[1, 1, 1, 1, 1], [1 / 2, 1 / 2, 1 / 2, 1 / 2, 1 / 2], [0, 0, 0, 0, 0]],
          true) := by
    rw [pipelineClusters, rankRows_eval, rankScaled_eval, rankKm_eval]
  refine ⟨by rw [hclusters], ?_, ?_, ?_, rfl, rfl, by decide⟩
  · rw [hclusters]
    norm_num [composite]
  · rw [hclusters]
    norm_num [composite]
  · rw [runPipeline_eq, rankRows_eval, rankScaled_eval, rankKm_eval]
    simp [rankDemo]

end StudentDashboard
